import Mathlib

/-!
Verification of the rocky-pos backend core: the sales service
(sales.service.ts), the invoices service (invoices.service.ts) and the
role guard (roles.guard.ts), shallowly embedded as pure Lean functions
over an explicit database state.  Money amounts are modelled as `ℚ`,
stock quantities as `ℤ` (the Prisma `Int` column), ids as `Nat`.
Each service method takes the database state and returns the new state
together with `Except` for the thrown `NotFoundException` /
`BadRequestException`.  Methods that mutate before throwing (the
un-transactioned parts of the source) return the partially mutated
state on error, exactly as the real database would retain it.
-/

deriving instance DecidableEq for Except

namespace RockyPos

/-- Prisma enum SaleStatus. -/
inductive SaleStatus
  | COMPLETED
  | PENDING
  | CANCELLED
deriving DecidableEq, Repr

/-- InvoiceStatus enum from update-invoice-status.dto.ts. -/
inductive InvoiceStatus
  | UNPAID
  | PAID
  | PARTIALLY_PAID
  | OVERDUE
  | CANCELLED
deriving DecidableEq, Repr

/-- Prisma enum Role. -/
inductive Role
  | USER
  | CASHIER
  | MANAGER
  | ADMIN
  | SUPER_ADMIN
deriving DecidableEq, Repr

/-- The two exception kinds the services throw, with their message. -/
inductive SvcError
  | notFound (msg : String)
  | badRequest (msg : String)
deriving DecidableEq, Repr

/-- Product row: the fields the sales workflow reads or writes. -/
structure Product where
  id : Nat
  name : String
  price : ℚ
  quantity : ℤ
  isActive : Bool
deriving DecidableEq, Repr

/-- SaleItem row as created by SalesService.create. -/
structure SaleItem where
  productId : Nat
  quantity : ℤ
  unitPrice : ℚ
  discount : ℚ
  totalPrice : ℚ
deriving DecidableEq, Repr

/-- Sale row with its line items. -/
structure Sale where
  id : Nat
  customerId : Option Nat
  userId : Nat
  totalAmount : ℚ
  discount : ℚ
  taxAmount : ℚ
  finalAmount : ℚ
  status : SaleStatus
  items : List SaleItem
deriving DecidableEq, Repr

/-- Database state seen by the sales service: customers are only ever
looked up by id, so they are kept as a list of ids. -/
structure Db where
  customers : List Nat
  products : List Product
  sales : List Sale
  nextSaleId : Nat
deriving DecidableEq, Repr

/-- prisma.product.findUnique by id. -/
def findProduct (db : Db) (pid : Nat) : Option Product :=
  db.products.find? (fun p => p.id == pid)

/-- prisma.sale.findUnique by id (items included). -/
def findSale (db : Db) (sid : Nat) : Option Sale :=
  db.sales.find? (fun s => s.id == sid)

/-- prisma.customer.findUnique by id, reduced to existence. -/
def customerExists (db : Db) (cid : Nat) : Bool :=
  db.customers.contains cid

/-- prisma.product.update with quantity increment (decrement = negative
delta): only the quantity field of the matching row changes. -/
def updateProductQty (db : Db) (pid : Nat) (delta : ℤ) : Db :=
  { db with
    products := db.products.map fun p =>
      if p.id == pid then { p with quantity := p.quantity + delta } else p }

/-- CreateSaleItemDto from sale.dto.ts.  The class-validator
constraints (`Min(1)` on quantity, `Min(0)` on discount), enforced by
the global ValidationPipe in main.ts, are stated as the predicate
`CreateSaleItemDto.Validated` below rather than baked into the type. -/
structure CreateSaleItemDto where
  productId : Nat
  quantity : ℤ
  discount : Option ℚ
deriving DecidableEq, Repr

/-- CreateSaleDto from sale.dto.ts (paymentMethod and notes carry no
logic and are omitted). -/
structure CreateSaleDto where
  customerId : Option Nat
  items : List CreateSaleItemDto
  discount : Option ℚ
  taxAmount : Option ℚ
deriving DecidableEq, Repr

/-- The class-validator constraints on CreateSaleItemDto. -/
def CreateSaleItemDto.Validated (it : CreateSaleItemDto) : Prop :=
  1 ≤ it.quantity ∧ 0 ≤ it.discount.getD 0

/-- The class-validator constraints on CreateSaleDto. -/
def CreateSaleDto.Validated (dto : CreateSaleDto) : Prop :=
  (∀ it ∈ dto.items, it.Validated) ∧
    0 ≤ dto.discount.getD 0 ∧ 0 ≤ dto.taxAmount.getD 0

/-- The per-item loop of SalesService.create (sales.service.ts lines
33–73): validate the product, snapshot its price, build the SaleItem,
accumulate the total, and decrement stock immediately.  The source
runs this loop without a transaction, so on a thrown exception the
decrements already performed stay in the database: the returned state
is the mutated one even in the error case. -/
def processSaleItems (db : Db) :
    List CreateSaleItemDto → List SaleItem → ℚ →
    Db × Except SvcError (List SaleItem × ℚ)
  | [], acc, total => (db, .ok (acc.reverse, total))
  | item :: rest, acc, total =>
    match findProduct db item.productId with
    | none =>
      (db, .error (.badRequest
        ("Product with ID " ++ toString item.productId ++ " not found")))
    | some product =>
      if !product.isActive then
        (db, .error (.badRequest ("Product " ++ product.name ++ " is not active")))
      else if product.quantity < item.quantity then
        (db, .error (.badRequest ("Insufficient stock for product " ++ product.name)))
      else
        let unitPrice := product.price
        let itemDiscount := item.discount.getD 0
        let totalPrice := unitPrice * (item.quantity : ℚ) - itemDiscount
        let saleItem : SaleItem :=
          { productId := item.productId, quantity := item.quantity,
            unitPrice := unitPrice, discount := itemDiscount, totalPrice := totalPrice }
        let db1 := updateProductQty db item.productId (-item.quantity)
        processSaleItems db1 rest (saleItem :: acc) (total + totalPrice)

namespace SalesService

/-- SalesService.create (sales.service.ts lines 10–113): reject an
empty item list, validate the customer when given, run the item loop,
then compute the percentage discount and persist the sale with status
COMPLETED.  No transaction wraps the loop in the source. -/
def create (db : Db) (dto : CreateSaleDto) (userId : Nat) :
    Db × Except SvcError Sale :=
  let discount := dto.discount.getD 0
  let taxAmount := dto.taxAmount.getD 0
  if dto.items.isEmpty then
    (db, .error (.badRequest "Sale must have at least one item"))
  else if (match dto.customerId with
           | some cid => !customerExists db cid
           | none => false) then
    (db, .error (.badRequest
      ("Customer with ID " ++ toString (dto.customerId.getD 0) ++ " not found")))
  else
    match processSaleItems db dto.items [] 0 with
    | (db1, .error e) => (db1, .error e)
    | (db1, .ok (saleItems, totalAmount)) =>
      let discountAmount := totalAmount * discount / 100
      let finalAmount := totalAmount - discountAmount + taxAmount
      let sale : Sale :=
        { id := db1.nextSaleId, customerId := dto.customerId, userId := userId,
          totalAmount := totalAmount, discount := discount, taxAmount := taxAmount,
          finalAmount := finalAmount, status := SaleStatus.COMPLETED,
          items := saleItems }
      ({ db1 with sales := db1.sales ++ [sale], nextSaleId := db1.nextSaleId + 1 },
       .ok sale)

/-- The restoration loops of cancelSale and remove: increment each
product by the quantity recorded on the sale item. -/
def restoreItems (db : Db) (items : List SaleItem) : Db :=
  items.foldl (fun d item => updateProductQty d item.productId item.quantity) db

/-- SalesService.cancelSale (sales.service.ts lines 221–270): not
found and already-cancelled are rejected; otherwise every item's
recorded quantity is added back to its product and the status becomes
CANCELLED. -/
def cancelSale (db : Db) (id : Nat) : Db × Except SvcError Sale :=
  match findSale db id with
  | none =>
    (db, .error (.notFound ("Sale with ID " ++ toString id ++ " not found")))
  | some sale =>
    if sale.status == SaleStatus.CANCELLED then
      (db, .error (.badRequest "Sale is already cancelled"))
    else
      let db1 := restoreItems db sale.items
      let cancelled := { sale with status := SaleStatus.CANCELLED }
      ({ db1 with
          sales := db1.sales.map fun s => if s.id == id then cancelled else s },
       .ok cancelled)

/-- The status-string validation at the top of updateSaleStatus. -/
def parseSaleStatus : String → Option SaleStatus
  | "COMPLETED" => some SaleStatus.COMPLETED
  | "PENDING" => some SaleStatus.PENDING
  | "CANCELLED" => some SaleStatus.CANCELLED
  | _ => none

/-- SalesService.updateSaleStatus (sales.service.ts lines 377–412):
validates the status string, requires the sale to exist, and writes
the new status.  It performs no stock restoration on any transition. -/
def updateSaleStatus (db : Db) (id : Nat) (status : String) :
    Db × Except SvcError Sale :=
  match parseSaleStatus status with
  | none => (db, .error (.badRequest ("Invalid status: " ++ status)))
  | some st =>
    match findSale db id with
    | none =>
      (db, .error (.notFound ("Sale with ID " ++ toString id ++ " not found")))
    | some sale =>
      let updated := { sale with status := st }
      ({ db with
          sales := db.sales.map fun s => if s.id == id then updated else s },
       .ok updated)

/-- SalesService.remove (sales.service.ts lines 443–495): inside a
prisma transaction, restore stock when the sale was COMPLETED, then
delete the sale (items cascade). -/
def remove (db : Db) (id : Nat) : Db × Except SvcError Sale :=
  match findSale db id with
  | none =>
    (db, .error (.notFound ("Sale with ID " ++ toString id ++ " not found")))
  | some sale =>
    let db1 :=
      if sale.status == SaleStatus.COMPLETED then restoreItems db sale.items else db
    ({ db1 with sales := db1.sales.filter fun s => !(s.id == id) }, .ok sale)

end SalesService

/-! ## Role guard (roles.guard.ts) -/

/-- The request user as the guard reads it: `user.role` may be absent
and `user.isActive` is checked. -/
structure RequestUser where
  role : Option Role
  isActive : Bool
deriving DecidableEq, Repr

/-- The four distinct ForbiddenException messages of
RolesGuard.canActivate, as distinguishable error values. -/
inductive GuardError
  | notAuthenticated
  | roleNotFound
  | accountInactive
  | accessDenied
deriving DecidableEq, Repr

/-- The roleHierarchy table in RolesGuard.checkUserRole. -/
def roleHierarchy : Role → Nat
  | Role.USER => 1
  | Role.CASHIER => 2
  | Role.MANAGER => 3
  | Role.ADMIN => 4
  | Role.SUPER_ADMIN => 5

namespace RolesGuard

/-- RolesGuard.checkUserRole (roles.guard.ts lines 45–62): the user
passes when their level is at least the level of SOME required role. -/
def checkUserRole (userRole : Role) (requiredRoles : List Role) : Bool :=
  requiredRoles.any fun requiredRole =>
    roleHierarchy requiredRole ≤ roleHierarchy userRole

/-- RolesGuard.canActivate (roles.guard.ts lines 10–43).  The
reflector's required-roles metadata is `none` when the endpoint
declares no roles, in which case the guard returns true before any
user check. -/
def canActivate (requiredRoles : Option (List Role)) (user : Option RequestUser) :
    Except GuardError Bool :=
  match requiredRoles with
  | none => .ok true
  | some rs =>
    match user with
    | none => .error GuardError.notAuthenticated
    | some u =>
      match u.role with
      | none => .error GuardError.roleNotFound
      | some r =>
        if !u.isActive then .error GuardError.accountInactive
        else if !checkUserRole r rs then .error GuardError.accessDenied
        else .ok true

end RolesGuard

/-! ## Invoices service (invoices.service.ts) -/

/-- InvoiceItem row as created by createInvoice. -/
structure InvoiceItem where
  productId : Option Nat
  description : String
  quantity : ℚ
  unitPrice : ℚ
  discount : ℚ
  taxAmount : ℚ
  totalPrice : ℚ
deriving DecidableEq, Repr

/-- Invoice row; dates are kept as the incoming ISO strings. -/
structure Invoice where
  id : Nat
  invoiceNumber : String
  customerId : Nat
  saleId : Option Nat
  subtotal : ℚ
  discount : ℚ
  taxAmount : ℚ
  totalAmount : ℚ
  finalAmount : ℚ
  status : InvoiceStatus
  dueDate : String
  paidDate : Option String
  items : List InvoiceItem
deriving DecidableEq, Repr

/-- Database state seen by the invoices service. -/
structure InvoiceDb where
  customers : List Nat
  invoices : List Invoice
  nextInvoiceId : Nat
deriving DecidableEq, Repr

/-- prisma.invoice.findUnique by id. -/
def findInvoice (db : InvoiceDb) (iid : Nat) : Option Invoice :=
  db.invoices.find? (fun i => i.id == iid)

/-- prisma.customer.findUnique by id on the invoice side. -/
def customerExistsInv (db : InvoiceDb) (cid : Nat) : Bool :=
  db.customers.contains cid

/-- CreateInvoiceItemDto from create-invoice.dto.ts. -/
structure CreateInvoiceItemDto where
  productId : Option Nat
  description : String
  quantity : ℚ
  unitPrice : ℚ
  discount : Option ℚ
  taxAmount : Option ℚ
deriving DecidableEq, Repr

/-- CreateInvoiceDto from create-invoice.dto.ts (notes omitted). -/
structure CreateInvoiceDto where
  customerId : Nat
  saleId : Option Nat
  items : List CreateInvoiceItemDto
  discount : Option ℚ
  taxAmount : Option ℚ
  dueDate : String
deriving DecidableEq, Repr

/-- UpdateInvoiceStatusDto from update-invoice-status.dto.ts. -/
structure UpdateInvoiceStatusDto where
  status : InvoiceStatus
  paidDate : Option String
deriving DecidableEq, Repr

/-- String.padStart(2, zero) applied to the 1-based month. -/
def padStart2 (n : Nat) : String :=
  if (toString n).length < 2 then "0" ++ toString n else toString n

/-- String(sequence).padStart(4, zero). -/
def pad4 (n : Nat) : String :=
  let s := toString n
  if s.length < 4 then String.mk (List.replicate (4 - s.length) '0') ++ s else s

/-- JS parseInt on the strings at hand: the leading run of decimal
digits, `none` for NaN when the string does not start with a digit. -/
def parseIntLeadingDigits (s : String) : Option Nat :=
  let ds := s.data.takeWhile Char.isDigit
  if ds.isEmpty then none
  else some (ds.foldl (fun acc c => acc * 10 + (c.toNat - 48)) 0)

/-- Character-list version of String.startsWith (kernel-computable). -/
def startsWithChars : List Char → List Char → Bool
  | _, [] => true
  | [], _ :: _ => false
  | a :: as, b :: bs => a.toNat == b.toNat && startsWithChars as bs

/-- The startsWith filter of the invoiceNumber query. -/
def startsWithB (s pfx : String) : Bool := startsWithChars s.data pfx.data

/-- Splitting a character list on a separator, JS String.split style:
every occurrence separates, empty fragments are kept. -/
def splitCharsAux (sep : Char) : List Char → List Char → List (List Char)
  | [], acc => [acc.reverse]
  | c :: cs, acc =>
    if c.toNat == sep.toNat then acc.reverse :: splitCharsAux sep cs []
    else splitCharsAux sep cs (c :: acc)

/-- invoiceNumber.split with a dash, as in generateInvoiceNumber. -/
def splitOnDash (s : String) : List String :=
  (splitCharsAux '-' s.data []).map String.mk

/-- Lexicographic order on character lists by codepoint, the order the
store uses for orderBy on a text column. -/
def charListLt : List Char → List Char → Bool
  | [], [] => false
  | [], _ :: _ => true
  | _ :: _, [] => false
  | a :: as, b :: bs =>
    if a.toNat < b.toNat then true
    else if b.toNat < a.toNat then false
    else charListLt as bs

/-- Lexicographic strict order on strings. -/
def strLtB (s t : String) : Bool := charListLt s.data t.data

/-- prisma.invoice.findFirst with orderBy invoiceNumber desc: the
largest string in the list, `none` on an empty list. -/
def maxString? : List String → Option String
  | [] => none
  | s :: rest =>
    match maxString? rest with
    | none => some s
    | some m => some (if strLtB m s then s else m)

namespace InvoicesService

/-- InvoicesService.generateInvoiceNumber (invoices.service.ts lines
521–546), with the wall clock passed in as (year, month 1-based):
build the INV-YYYYMM marker, take the lexicographically last existing
invoiceNumber starting with it, parse the part after the second dash
and add one (1 when there is none), and zero-pad to four digits.  A
stored number whose third dash-field does not start with a digit makes
JS produce NaN; String(NaN).padStart(4, zero) is the literal "0NaN". -/
def generateInvoiceNumber (year month : Nat) (invoices : List Invoice) : String :=
  let pfx := "INV-" ++ toString year ++ padStart2 month
  match maxString?
      ((invoices.map (fun i => i.invoiceNumber)).filter (fun s => startsWithB s pfx)) with
  | none => pfx ++ "-" ++ pad4 1
  | some last =>
    match parseIntLeadingDigits ((splitOnDash last).getD 2 "") with
    | none => pfx ++ "-0NaN"
    | some lastSequence => pfx ++ "-" ++ pad4 (lastSequence + 1)

/-- InvoicesService.createInvoice (invoices.service.ts lines 38–153):
require the customer, accumulate subtotal / discount / tax in one pass
over the items (document-level discount and tax seed the accumulators),
set totalAmount = subtotal - discount + tax, generate the invoice
number, and persist with status UNPAID. -/
def createInvoice (db : InvoiceDb) (dto : CreateInvoiceDto) (year month : Nat) :
    InvoiceDb × Except SvcError Invoice :=
  if !customerExistsInv db dto.customerId then
    (db, .error (.notFound
      ("Customer with ID " ++ toString dto.customerId ++ " not found")))
  else
    let totals := dto.items.foldl
      (fun (acc : ℚ × ℚ × ℚ) item =>
        (acc.1 + item.quantity * item.unitPrice,
         acc.2.1 + item.discount.getD 0,
         acc.2.2 + item.taxAmount.getD 0))
      (0, dto.discount.getD 0, dto.taxAmount.getD 0)
    let subtotal := totals.1
    let totalDiscount := totals.2.1
    let totalTax := totals.2.2
    let totalAmount := subtotal - totalDiscount + totalTax
    let invoiceNumber := generateInvoiceNumber year month db.invoices
    let invItems : List InvoiceItem := dto.items.map fun item =>
      { productId := item.productId, description := item.description,
        quantity := item.quantity, unitPrice := item.unitPrice,
        discount := item.discount.getD 0, taxAmount := item.taxAmount.getD 0,
        totalPrice := item.quantity * item.unitPrice
          - item.discount.getD 0 + item.taxAmount.getD 0 }
    let inv : Invoice :=
      { id := db.nextInvoiceId, invoiceNumber := invoiceNumber,
        customerId := dto.customerId, saleId := dto.saleId,
        subtotal := subtotal, discount := totalDiscount, taxAmount := totalTax,
        totalAmount := totalAmount, finalAmount := totalAmount,
        status := InvoiceStatus.UNPAID, dueDate := dto.dueDate,
        paidDate := none, items := invItems }
    ({ db with invoices := db.invoices ++ [inv],
               nextInvoiceId := db.nextInvoiceId + 1 },
     .ok inv)

/-- InvoicesService.updateInvoiceStatus (invoices.service.ts lines
387–467): not found is rejected, a CANCELLED invoice admits no further
transition, the status is written, and paidDate is written only when
the new status is PAID AND a paidDate was supplied. -/
def updateInvoiceStatus (db : InvoiceDb) (id : Nat) (dto : UpdateInvoiceStatusDto) :
    InvoiceDb × Except SvcError Invoice :=
  match findInvoice db id with
  | none =>
    (db, .error (.notFound ("Invoice with ID " ++ toString id ++ " not found")))
  | some inv =>
    if inv.status == InvoiceStatus.CANCELLED then
      (db, .error (.badRequest "Cannot update status of a cancelled invoice"))
    else
      let updated :=
        if dto.status == InvoiceStatus.PAID && dto.paidDate.isSome then
          { inv with status := dto.status, paidDate := dto.paidDate }
        else
          { inv with status := dto.status }
      ({ db with
          invoices := db.invoices.map fun i => if i.id == id then updated else i },
       .ok updated)

end InvoicesService

/-! ## Auxiliary specification-side definitions -/

/-- The minimum required level among an endpoint's declared roles
(meaningful for a nonempty declaration). -/
def minRequiredLevel (rs : List Role) : Nat :=
  (rs.map roleHierarchy).foldl min 6

/-- Total recorded quantity for one product across the line items of a
sale (a product referenced by several items is restored by the sum). -/
def itemsQty (pid : Nat) (items : List SaleItem) : ℤ :=
  ((items.filter fun it => it.productId == pid).map fun it => it.quantity).sum

/-- Correspondence between a requested item and the stored SaleItem
that SalesService.create builds for it: the product exists and is
active in the given database state, the unit price is snapshotted from
it, and totalPrice = unitPrice * quantity - discount. -/
def ItemSpec (db : Db) (dit : CreateSaleItemDto) (sit : SaleItem) : Prop :=
  ∃ p : Product, findProduct db dit.productId = some p ∧ p.isActive = true ∧
    sit.productId = dit.productId ∧ sit.quantity = dit.quantity ∧
    sit.unitPrice = p.price ∧ sit.discount = dit.discount.getD 0 ∧
    sit.totalPrice = p.price * (dit.quantity : ℚ) - dit.discount.getD 0

/-! ## Sequences of sales operations (for the stock invariant) -/

/-- One sales-service call in a sequential history. -/
inductive SaleOp
  | createOp (dto : CreateSaleDto) (userId : Nat)
  | cancelOp (id : Nat)
  | removeOp (id : Nat)
deriving DecidableEq, Repr

/-- Execute one call, keeping whatever state it leaves behind whether
it succeeds or throws. -/
def applySaleOp (db : Db) : SaleOp → Db
  | SaleOp.createOp dto uid => (SalesService.create db dto uid).1
  | SaleOp.cancelOp id => (SalesService.cancelSale db id).1
  | SaleOp.removeOp id => (SalesService.remove db id).1

/-- Execute a sequence of calls. -/
def runSaleOps (db : Db) (ops : List SaleOp) : Db := ops.foldl applySaleOp db

/-- Every product has nonnegative stock. -/
def StockNonneg (db : Db) : Prop := ∀ p ∈ db.products, 0 ≤ p.quantity

/-- Every stored sale item records a nonnegative quantity (true of
every sale the service ever creates, since the DTO validation requires
quantity ≥ 1). -/
def ItemsNonneg (db : Db) : Prop := ∀ s ∈ db.sales, ∀ it ∈ s.items, 0 ≤ it.quantity

/-- Product ids are unique: the primary-key guarantee of the store. -/
def IdsUnique (db : Db) : Prop := (db.products.map fun p => p.id).Nodup

/-- Well-formedness of a database state: the primary-key guarantee
plus the two quantity invariants. -/
def DbInv (db : Db) : Prop := IdsUnique db ∧ StockNonneg db ∧ ItemsNonneg db

/-- An operation whose payload passed the ValidationPipe. -/
def ValidOp : SaleOp → Prop
  | SaleOp.createOp dto _ => dto.Validated
  | SaleOp.cancelOp _ => True
  | SaleOp.removeOp _ => True

instance (it : CreateSaleItemDto) : Decidable it.Validated := by
  unfold CreateSaleItemDto.Validated; infer_instance

instance (dto : CreateSaleDto) : Decidable dto.Validated := by
  unfold CreateSaleDto.Validated; infer_instance

instance (op : SaleOp) : Decidable (ValidOp op) := by
  cases op <;> unfold ValidOp <;> infer_instance

instance (db : Db) : Decidable (StockNonneg db) := by
  unfold StockNonneg; infer_instance

instance (db : Db) : Decidable (ItemsNonneg db) := by
  unfold ItemsNonneg; infer_instance

instance (db : Db) : Decidable (IdsUnique db) := by
  unfold IdsUnique; infer_instance

instance (db : Db) : Decidable (DbInv db) := by
  unfold DbInv; infer_instance

/-! ## Concrete states used to exercise the theorems -/

/-- Two active products: 5 units of P1, a single unit of P2. -/
def twoProductDb : Db :=
  { customers := [],
    products :=
      [ { id := 1, name := "P1", price := 10, quantity := 5, isActive := true },
        { id := 2, name := "P2", price := 10, quantity := 1, isActive := true } ],
    sales := [], nextSaleId := 1 }

/-- A request whose first line is satisfiable but whose second asks
for three units of P2 when only one is in stock. -/
def insufficientDto : CreateSaleDto :=
  { customerId := none,
    items :=
      [ { productId := 1, quantity := 2, discount := none },
        { productId := 2, quantity := 3, discount := none } ],
    discount := none, taxAmount := none }

/-- A COMPLETED sale of three units of product 1. -/
def completedSale : Sale :=
  { id := 1, customerId := none, userId := 7, totalAmount := 30, discount := 0,
    taxAmount := 0, finalAmount := 30, status := SaleStatus.COMPLETED,
    items :=
      [ { productId := 1, quantity := 3, unitPrice := 10, discount := 0,
          totalPrice := 30 } ] }

/-- Product 1 at 7 units together with the completed sale above. -/
def saleDb : Db :=
  { customers := [],
    products := [ { id := 1, name := "P1", price := 10, quantity := 7, isActive := true } ],
    sales := [completedSale], nextSaleId := 2 }

/-- One unpaid invoice and its customer. -/
def unpaidInvoice : Invoice :=
  { id := 1, invoiceNumber := "INV-202412-0001", customerId := 1, saleId := none,
    subtotal := 10, discount := 0, taxAmount := 0, totalAmount := 10,
    finalAmount := 10, status := InvoiceStatus.UNPAID, dueDate := "2024-12-31",
    paidDate := none, items := [] }

/-- Invoice database holding just the unpaid invoice. -/
def unpaidInvoiceDb : InvoiceDb :=
  { customers := [1], invoices := [unpaidInvoice], nextInvoiceId := 2 }

/-- Invoice database with one customer and no invoices yet. -/
def emptyInvoiceDb : InvoiceDb := { customers := [1], invoices := [], nextInvoiceId := 1 }

/-- A createInvoice request: one line of 2 x 5 with item discount 1
and item tax 2, document discount 3 and document tax 4. -/
def invoiceDtoEx : CreateInvoiceDto :=
  { customerId := 1, saleId := none,
    items :=
      [ { productId := none, description := "headset", quantity := 2, unitPrice := 5,
          discount := some 1, taxAmount := some 2 } ],
    discount := some 3, taxAmount := some 4, dueDate := "2024-12-31" }

/-- The invoice createInvoice builds for invoiceDtoEx in 2024-12 on
the empty database. -/
def invoiceEx : Invoice :=
  { id := 1, invoiceNumber := "INV-202412-0001", customerId := 1, saleId := none,
    subtotal := 10, discount := 4, taxAmount := 6, totalAmount := 12,
    finalAmount := 12, status := InvoiceStatus.UNPAID, dueDate := "2024-12-31",
    paidDate := none,
    items :=
      [ { productId := none, description := "headset", quantity := 2, unitPrice := 5,
          discount := 1, taxAmount := 2, totalPrice := 11 } ] }

/-- A single-product catalog for exercising create. -/
def oneProductDb : Db :=
  { customers := [],
    products := [ { id := 1, name := "P1", price := 10, quantity := 5, isActive := true } ],
    sales := [], nextSaleId := 1 }

/-- A sale request for 2 units with a 50 percent document discount and
7 of tax. -/
def halfOffDto : CreateSaleDto :=
  { customerId := none,
    items := [ { productId := 1, quantity := 2, discount := none } ],
    discount := some 50, taxAmount := some 7 }

/-- The sale create builds for halfOffDto on oneProductDb. -/
def halfOffSale : Sale :=
  { id := 1, customerId := none, userId := 7, totalAmount := 20, discount := 50,
    taxAmount := 7, finalAmount := 17, status := SaleStatus.COMPLETED,
    items :=
      [ { productId := 1, quantity := 2, unitPrice := 10, discount := 0,
          totalPrice := 20 } ] }

/-- A short history: a create that fails on its second line, then a
cancel and a remove of the then-existing sale id. -/
def opsEx : List SaleOp :=
  [ SaleOp.createOp insufficientDto 7, SaleOp.cancelOp 1, SaleOp.removeOp 1 ]

/-! ## Theorems -/

/-- C1: the claim that a validation failure inside SalesService.create
leaves every product quantity unchanged is false: the method decrements
stock inside the validation loop with no surrounding transaction, so
when the second line item fails the stock check, the first item's
decrement persists even though no sale was created.  Here product 1
drops from 5 to 3 while the call throws and the sales table stays
empty. -/
theorem C1_create_validation_failure_leaves_mutated_stock :
    (SalesService.create twoProductDb insufficientDto 7).2
        = Except.error (SvcError.badRequest "Insufficient stock for product P2") ∧
    (SalesService.create twoProductDb insufficientDto 7).1.sales = [] ∧
    (findProduct twoProductDb 1).map (fun p => p.quantity) = some 5 ∧
    (findProduct (SalesService.create twoProductDb insufficientDto 7).1 1).map
        (fun p => p.quantity) = some 3 := by
  decide

/-- C3: the claim that every transition to CANCELLED restores stock is
false for SalesService.updateSaleStatus: setting a COMPLETED sale's
status to CANCELLED through it succeeds but leaves the sold product's
quantity untouched (7 before, 7 after, instead of the restored 10). -/
theorem C3_updateSaleStatus_cancel_skips_restoration :
    (SalesService.updateSaleStatus saleDb 1 "CANCELLED").2
        = Except.ok { completedSale with status := SaleStatus.CANCELLED } ∧
    (findProduct saleDb 1).map (fun p => p.quantity) = some 7 ∧
    (findProduct (SalesService.updateSaleStatus saleDb 1 "CANCELLED").1 1).map
        (fun p => p.quantity) = some 7 := by
  decide

/-- C9: the claim that reaching PAID requires a paidDate is false:
updateInvoiceStatus on a non-CANCELLED invoice with target PAID and no
paidDate succeeds, and the persisted invoice is PAID with no paidDate. -/
theorem C9_paid_status_without_paidDate :
    (InvoicesService.updateInvoiceStatus unpaidInvoiceDb 1
        { status := InvoiceStatus.PAID, paidDate := none }).2
      = Except.ok { unpaidInvoice with status := InvoiceStatus.PAID } ∧
    (findInvoice (InvoicesService.updateInvoiceStatus unpaidInvoiceDb 1
        { status := InvoiceStatus.PAID, paidDate := none }).1 1).map
        (fun i => (i.status, i.paidDate))
      = some (InvoiceStatus.PAID, none) := by
  decide

/-- C10: when an endpoint declares no required-roles metadata, the
guard returns true before looking at the request user at all: any
user value, including none, a role-less user, or an inactive user, is
granted access. -/
theorem C10_no_roles_metadata_grants_all (user : Option RequestUser) :
    RolesGuard.canActivate none user = Except.ok true := rfl

/-- Folding min over a list is below x iff the seed or some element is. -/
theorem foldl_min_le_iff (l : List Nat) (a x : Nat) :
    l.foldl min a ≤ x ↔ a ≤ x ∨ ∃ b ∈ l, b ≤ x := by
  induction l generalizing a with
  | nil => simp
  | cons c cs ih =>
    simp only [List.foldl_cons, ih, min_le_iff, List.mem_cons]
    constructor
    · rintro (⟨h | h⟩ | ⟨b, hb, hbx⟩)
      · exact Or.inl h
      · exact Or.inr ⟨c, Or.inl rfl, h⟩
      · exact Or.inr ⟨b, Or.inr hb, hbx⟩
    · rintro (h | ⟨b, hb | hb, hbx⟩)
      · exact Or.inl (Or.inl h)
      · subst hb; exact Or.inl (Or.inr hbx)
      · exact Or.inr ⟨b, hb, hbx⟩

/-- The guard's any-quantified check is the hierarchical check against
the minimum required level. -/
theorem checkUserRole_iff_minLevel (r : Role) (rs : List Role) :
    RolesGuard.checkUserRole r rs = true ↔ minRequiredLevel rs ≤ roleHierarchy r := by
  unfold RolesGuard.checkUserRole minRequiredLevel
  rw [List.any_eq_true, foldl_min_le_iff]
  constructor
  · rintro ⟨req, hreq, hle⟩
    exact Or.inr ⟨roleHierarchy req, List.mem_map_of_mem _ hreq, by simpa using hle⟩
  · rintro (h | ⟨b, hb, hbx⟩)
    · exact absurd h (by cases r <;> simp [roleHierarchy])
    · obtain ⟨req, hreq, rfl⟩ := List.mem_map.1 hb
      exact ⟨req, hreq, by simpa using hbx⟩

/-- C6: for an endpoint declaring a nonempty set of required roles,
the guard grants access exactly when an authenticated user with a role
is active and their level reaches the minimum required level; each
failing precondition yields its own distinct error; MANAGER passes a
CASHIER requirement, CASHIER fails an ADMIN requirement, and an
inactive ADMIN fails every check. -/
theorem C6_role_guard_hierarchical (rs : List Role) (user : Option RequestUser)
    (hne : rs ≠ []) :
    (RolesGuard.canActivate (some rs) user = Except.ok true ↔
      ∃ u r, user = some u ∧ u.role = some r ∧ u.isActive = true ∧
        minRequiredLevel rs ≤ roleHierarchy r) ∧
    (user = none →
      RolesGuard.canActivate (some rs) user = Except.error GuardError.notAuthenticated) ∧
    (∀ u, user = some u → u.role = none →
      RolesGuard.canActivate (some rs) user = Except.error GuardError.roleNotFound) ∧
    (∀ u r, user = some u → u.role = some r → u.isActive = false →
      RolesGuard.canActivate (some rs) user = Except.error GuardError.accountInactive) ∧
    (∀ u r, user = some u → u.role = some r → u.isActive = true →
      roleHierarchy r < minRequiredLevel rs →
      RolesGuard.canActivate (some rs) user = Except.error GuardError.accessDenied) ∧
    RolesGuard.checkUserRole Role.MANAGER [Role.CASHIER] = true ∧
    RolesGuard.checkUserRole Role.CASHIER [Role.ADMIN] = false ∧
    (∀ rs2 : List Role, RolesGuard.canActivate (some rs2)
        (some { role := some Role.ADMIN, isActive := false })
      = Except.error GuardError.accountInactive) := by
  refine ⟨?_, ?_, ?_, ?_, ?_, by decide, by decide, fun rs2 => rfl⟩
  · cases user with
    | none => simp [RolesGuard.canActivate]
    | some u =>
      cases hrole : u.role with
      | none => simp [RolesGuard.canActivate, hrole]
      | some r =>
        cases hact : u.isActive with
        | false => simp [RolesGuard.canActivate, hrole, hact]
        | true =>
          by_cases hcheck : RolesGuard.checkUserRole r rs = true
          · simp [RolesGuard.canActivate, hrole, hact, hcheck,
              (checkUserRole_iff_minLevel r rs).mp hcheck]
          · have : ¬ minRequiredLevel rs ≤ roleHierarchy r := fun h =>
              hcheck ((checkUserRole_iff_minLevel r rs).mpr h)
            simp only [Bool.not_eq_true] at hcheck
            simp [RolesGuard.canActivate, hrole, hact, hcheck, this]
  · rintro rfl; rfl
  · rintro u rfl hrole; simp [RolesGuard.canActivate, hrole]
  · rintro u r rfl hrole hact; simp [RolesGuard.canActivate, hrole, hact]
  · rintro u r rfl hrole hact hlt
    have hcheck : RolesGuard.checkUserRole r rs ≠ true := fun h =>
      absurd ((checkUserRole_iff_minLevel r rs).mp h) (not_le.mpr hlt)
    simp only [Bool.not_eq_true] at hcheck
    simp [RolesGuard.canActivate, hrole, hact, hcheck]

/-- C6 witness: a MANAGER is granted access to an endpoint requiring
CASHIER. -/
theorem C6_role_guard_hierarchical_witness :
    RolesGuard.canActivate (some [Role.CASHIER])
      (some { role := some Role.MANAGER, isActive := true }) = Except.ok true := by
  have h := C6_role_guard_hierarchical [Role.CASHIER]
    (some { role := some Role.MANAGER, isActive := true }) (by decide)
  exact h.1.mpr ⟨_, _, rfl, rfl, rfl, by decide⟩

/-- C5: generateInvoiceNumber emits the INV-YYYYMM marker followed by
a dash and a 4-zero-padded sequence: 0001 when no stored invoiceNumber
starts with the marker, and otherwise one more than the number parsed
from the third dash-separated field of the lexicographically last
matching invoiceNumber; concretely the first invoice of 2024-12 gets
INV-202412-0001 and the next INV-202412-0002. -/
theorem C5_generateInvoiceNumber_format (year month k : Nat)
    (invoices : List Invoice) (last : String) :
    (((invoices.map fun i => i.invoiceNumber).filter
        (fun s => startsWithB s ("INV-" ++ toString year ++ padStart2 month))) = [] →
      InvoicesService.generateInvoiceNumber year month invoices
        = "INV-" ++ toString year ++ padStart2 month ++ "-" ++ pad4 1) ∧
    (maxString? ((invoices.map fun i => i.invoiceNumber).filter
        (fun s => startsWithB s ("INV-" ++ toString year ++ padStart2 month)))
        = some last →
      parseIntLeadingDigits ((splitOnDash last).getD 2 "") = some k →
      InvoicesService.generateInvoiceNumber year month invoices
        = "INV-" ++ toString year ++ padStart2 month ++ "-" ++ pad4 (k + 1)) ∧
    pad4 1 = "0001" ∧
    InvoicesService.generateInvoiceNumber 2024 12 [] = "INV-202412-0001" ∧
    (∀ inv : Invoice, inv.invoiceNumber = "INV-202412-0001" →
      InvoicesService.generateInvoiceNumber 2024 12 [inv] = "INV-202412-0002") := by
  refine ⟨?_, ?_, by decide, by decide, ?_⟩
  · intro hempty
    simp [InvoicesService.generateInvoiceNumber, hempty, maxString?]
  · intro hmax hparse
    simp only [List.getD_eq_getElem?_getD] at hparse
    simp [InvoicesService.generateInvoiceNumber, hmax, hparse]
  · intro inv hinv
    have hmap : (List.map (fun i => i.invoiceNumber) [inv]) = ["INV-202412-0001"] := by
      simp [hinv]
    simp only [InvoicesService.generateInvoiceNumber, hmap]
    decide

/-- C5 witness: with INV-202412-0001 stored, the next number in
2024-12 is INV-202412-0002. -/
theorem C5_generateInvoiceNumber_format_witness :
    InvoicesService.generateInvoiceNumber 2024 12 [unpaidInvoice] = "INV-202412-0002" := by
  have h := C5_generateInvoiceNumber_format 2024 12 1 [unpaidInvoice] "INV-202412-0001"
  exact h.2.1 (by decide) (by decide)

/-- One-pass accumulation of subtotal, discount and tax equals the
seed plus the per-field sums. -/
theorem invoiceTotals_foldl (items : List CreateInvoiceItemDto) (a b c : ℚ) :
    items.foldl
        (fun (acc : ℚ × ℚ × ℚ) item =>
          (acc.1 + item.quantity * item.unitPrice,
           acc.2.1 + item.discount.getD 0,
           acc.2.2 + item.taxAmount.getD 0)) (a, b, c)
      = (a + (items.map fun it => it.quantity * it.unitPrice).sum,
         b + (items.map fun it => it.discount.getD 0).sum,
         c + (items.map fun it => it.taxAmount.getD 0).sum) := by
  induction items generalizing a b c with
  | nil => simp
  | cons it rest ih => simp [List.foldl_cons, ih, add_assoc]

/-- C8: a successful createInvoice stores subtotal = Σ quantity *
unitPrice, discount = document discount + Σ item discounts, taxAmount
= document tax + Σ item taxes, totalAmount = subtotal - discount +
taxAmount, and status UNPAID. -/
theorem C8_createInvoice_totals (db : InvoiceDb) (dto : CreateInvoiceDto)
    (year month : Nat) (inv : Invoice)
    (h : (InvoicesService.createInvoice db dto year month).2 = Except.ok inv) :
    inv.subtotal = (dto.items.map fun it => it.quantity * it.unitPrice).sum ∧
    inv.discount
      = dto.discount.getD 0 + (dto.items.map fun it => it.discount.getD 0).sum ∧
    inv.taxAmount
      = dto.taxAmount.getD 0 + (dto.items.map fun it => it.taxAmount.getD 0).sum ∧
    inv.totalAmount = inv.subtotal - inv.discount + inv.taxAmount ∧
    inv.status = InvoiceStatus.UNPAID := by
  unfold InvoicesService.createInvoice at h
  by_cases hc : customerExistsInv db dto.customerId
  · simp only [hc, Bool.not_true, Bool.false_eq_true, if_false,
      invoiceTotals_foldl, Except.ok.injEq] at h
    subst h
    exact ⟨by simp, by simp, by simp, by simp, rfl⟩
  · simp only [Bool.not_eq_true] at hc
    simp [hc] at h

/-- C8 witness: the sample invoice request yields subtotal 10,
discount 4, tax 6 and total 12, UNPAID. -/
theorem C8_createInvoice_totals_witness :
    invoiceEx.totalAmount = invoiceEx.subtotal - invoiceEx.discount + invoiceEx.taxAmount ∧
    invoiceEx.status = InvoiceStatus.UNPAID := by
  have hnum : InvoicesService.generateInvoiceNumber 2024 12 ([] : List Invoice)
      = "INV-202412-0001" := by decide
  have h0 : (InvoicesService.createInvoice emptyInvoiceDb invoiceDtoEx 2024 12).2
      = Except.ok invoiceEx := by
    unfold InvoicesService.createInvoice
    simp only [emptyInvoiceDb, invoiceDtoEx] at hnum ⊢
    simp [customerExistsInv, hnum, invoiceEx, Invoice.mk.injEq, InvoiceItem.mk.injEq]
    norm_num
  have h := C8_createInvoice_totals emptyInvoiceDb invoiceDtoEx 2024 12 invoiceEx h0
  exact ⟨h.2.2.2.1, h.2.2.2.2⟩

/-- Looking a product up after a quantity update returns the original
lookup result with only the quantity of the targeted row adjusted. -/
theorem findProduct_updateQty (db : Db) (pid q : Nat) (delta : ℤ) :
    findProduct (updateProductQty db pid delta) q
      = (findProduct db q).map fun p =>
          if p.id == pid then { p with quantity := p.quantity + delta } else p := by
  unfold findProduct updateProductQty
  rw [List.find?_map]
  congr 2
  funext p
  by_cases h : p.id = pid <;> simp [h]

/-- A quantity update never changes the price or active flag any
lookup sees. -/
theorem findProduct_updateQty_price (db : Db) (pid q : Nat) (delta : ℤ) :
    (findProduct (updateProductQty db pid delta) q).map (fun p => (p.price, p.isActive))
      = (findProduct db q).map fun p => (p.price, p.isActive) := by
  rw [findProduct_updateQty]
  cases findProduct db q with
  | none => rfl
  | some p => by_cases h : p.id = pid <;> simp [h]

/-- ItemSpec is invariant under quantity updates: it only reads the
price and active flag of the product. -/
theorem itemSpec_updateQty (db : Db) (pid : Nat) (delta : ℤ)
    (dit : CreateSaleItemDto) (sit : SaleItem) :
    ItemSpec (updateProductQty db pid delta) dit sit ↔ ItemSpec db dit sit := by
  unfold ItemSpec
  constructor
  · rintro ⟨p, hp, hact, h1, h2, h3, h4, h5⟩
    have hpr := findProduct_updateQty_price db pid dit.productId delta
    cases hq : findProduct db dit.productId with
    | none => rw [hq, hp] at hpr; simp at hpr
    | some p0 =>
      rw [hq, hp] at hpr
      simp only [Option.map_some', Option.some.injEq, Prod.mk.injEq] at hpr
      refine ⟨p0, rfl, ?_, h1, h2, ?_, h4, ?_⟩
      · rw [← hpr.2]; exact hact
      · rw [← hpr.1]; exact h3
      · rw [← hpr.1]; exact h5
  · rintro ⟨p0, hq, hact, h1, h2, h3, h4, h5⟩
    rw [findProduct_updateQty, hq]
    by_cases hid : p0.id = pid
    · exact ⟨{ p0 with quantity := p0.quantity + delta }, by simp [hid],
        hact, h1, h2, h3, h4, h5⟩
    · exact ⟨p0, by simp [hid], hact, h1, h2, h3, h4, h5⟩

/-- Characterization of a successful run of the item loop: the built
items extend the accumulator, the total extends the running total by
their totalPrice sum, and each built item corresponds to its request
by ItemSpec over the loop's entry state. -/
theorem processSaleItems_ok (items : List CreateSaleItemDto) :
    ∀ (db db' : Db) (acc sis : List SaleItem) (total t : ℚ),
      processSaleItems db items acc total = (db', Except.ok (sis, t)) →
      ∃ tail : List SaleItem,
        sis = acc.reverse ++ tail ∧
        t = total + (tail.map fun it => it.totalPrice).sum ∧
        List.Forall₂ (ItemSpec db) items tail := by
  induction items with
  | nil =>
    intro db db' acc sis total t h
    simp only [processSaleItems, Prod.mk.injEq, Except.ok.injEq] at h
    obtain ⟨-, h1, h2⟩ := h
    exact ⟨[], by rw [← h1]; simp, by rw [← h2]; simp, List.Forall₂.nil⟩
  | cons it rest ih =>
    intro db db' acc sis total t h
    simp only [processSaleItems] at h
    cases hp : findProduct db it.productId with
    | none => rw [hp] at h; simp at h
    | some product =>
      rw [hp] at h
      by_cases hact : product.isActive
      · by_cases hstock : product.quantity < it.quantity
        · simp [hact, hstock] at h
        · simp only [hact, Bool.not_true, Bool.false_eq_true, if_false,
            hstock, if_true, if_false] at h
          obtain ⟨tail', h1, h2, h3⟩ :=
            ih (updateProductQty db it.productId (-it.quantity)) db'
              (⟨it.productId, it.quantity, product.price, it.discount.getD 0,
                product.price * (it.quantity : ℚ) - it.discount.getD 0⟩ :: acc)
              sis (total + (product.price * (it.quantity : ℚ) - it.discount.getD 0)) t h
          refine ⟨⟨it.productId, it.quantity, product.price, it.discount.getD 0,
              product.price * (it.quantity : ℚ) - it.discount.getD 0⟩ :: tail', ?_, ?_, ?_⟩
          · rw [h1]; simp
          · rw [h2]; simp [add_assoc]
          · refine List.Forall₂.cons ⟨product, hp, hact, rfl, rfl, rfl, rfl, rfl⟩ ?_
            exact h3.imp fun a b hab =>
              (itemSpec_updateQty db it.productId (-it.quantity) a b).mp hab
      · simp [hact] at h

/-- C7: a successful SalesService.create persists a COMPLETED sale in
which each item snapshots the unit price from the product's current
price, totalPrice = unitPrice * quantity - itemDiscount, totalAmount
is the sum of the item totals, and finalAmount = totalAmount *
(1 - discount / 100) + taxAmount. -/
theorem C7_create_success_totals (db : Db) (dto : CreateSaleDto) (userId : Nat)
    (sale : Sale)
    (h : (SalesService.create db dto userId).2 = Except.ok sale) :
    sale.status = SaleStatus.COMPLETED ∧
    sale.discount = dto.discount.getD 0 ∧
    sale.taxAmount = dto.taxAmount.getD 0 ∧
    sale.totalAmount = (sale.items.map fun it => it.totalPrice).sum ∧
    sale.finalAmount = sale.totalAmount * (1 - sale.discount / 100) + sale.taxAmount ∧
    List.Forall₂ (ItemSpec db) dto.items sale.items := by
  unfold SalesService.create at h
  by_cases hemp : dto.items.isEmpty
  · simp [hemp] at h
  · by_cases hcust : (match dto.customerId with
      | some cid => !customerExists db cid
      | none => false)
    · simp [hemp, hcust] at h
    · simp only [hemp, Bool.false_eq_true, if_false, hcust] at h
      cases hp : processSaleItems db dto.items [] 0 with
      | mk db1 res =>
        rw [hp] at h
        cases res with
        | error e => simp at h
        | ok pr =>
          obtain ⟨saleItems, totalAmount⟩ := pr
          simp only [Except.ok.injEq] at h
          obtain ⟨tail, h1, h2, h3⟩ :=
            processSaleItems_ok dto.items db db1 [] saleItems 0 totalAmount hp
          simp only [List.reverse_nil, List.nil_append] at h1
          subst h1
          subst h
          refine ⟨rfl, rfl, rfl, ?_, by ring, h3⟩
          simpa using h2

/-- C7 witness: selling 2 x 10 with a 50 percent discount and 7 tax
yields totalAmount 20 and finalAmount 17 on a COMPLETED sale. -/
theorem C7_create_success_totals_witness :
    halfOffSale.status = SaleStatus.COMPLETED ∧
    halfOffSale.finalAmount
      = halfOffSale.totalAmount * (1 - halfOffSale.discount / 100)
        + halfOffSale.taxAmount := by
  have h0 : (SalesService.create oneProductDb halfOffDto 7).2 = Except.ok halfOffSale := by
    unfold SalesService.create
    simp [oneProductDb, halfOffDto, processSaleItems, findProduct, updateProductQty,
      halfOffSale, Sale.mk.injEq, SaleItem.mk.injEq]
    norm_num
  have h := C7_create_success_totals oneProductDb halfOffDto 7 halfOffSale h0
  exact ⟨h.1, h.2.2.2.2.1⟩

/-- Splitting the recorded quantity total at the head item. -/
theorem itemsQty_cons (pid : Nat) (it : SaleItem) (rest : List SaleItem) :
    itemsQty pid (it :: rest)
      = (if it.productId = pid then it.quantity else 0) + itemsQty pid rest := by
  unfold itemsQty
  by_cases h : it.productId = pid <;> simp [h, List.filter_cons]

/-- Restoring a list of items adds, for every product, exactly the
total quantity its items record. -/
theorem findProduct_restoreItems (items : List SaleItem) :
    ∀ (db : Db) (pid : Nat),
      findProduct (SalesService.restoreItems db items) pid
        = (findProduct db pid).map fun p =>
            { p with quantity := p.quantity + itemsQty pid items } := by
  induction items with
  | nil =>
    intro db pid
    show findProduct db pid = _
    cases findProduct db pid <;> simp [itemsQty]
  | cons it rest ih =>
    intro db pid
    show findProduct
        (SalesService.restoreItems (updateProductQty db it.productId it.quantity) rest) pid = _
    rw [ih, findProduct_updateQty]
    cases h : findProduct db pid with
    | none => simp
    | some p =>
      have hid : p.id = pid := by
        have := List.find?_some h
        simpa using this
      simp only [Option.map_some', itemsQty_cons, Option.some.injEq]
      by_cases hmatch : it.productId = pid
      · rw [if_pos hmatch]
        have : (p.id == it.productId) = true := by simp [hid, hmatch]
        simp [this, add_assoc]
      · rw [if_neg hmatch]
        have : (p.id == it.productId) = false := by
          simp [hid]; exact fun e => hmatch e.symm
        simp [this]

/-- restoreItems only touches products. -/
theorem restoreItems_sales (items : List SaleItem) :
    ∀ db : Db, (SalesService.restoreItems db items).sales = db.sales := by
  induction items with
  | nil => intro db; rfl
  | cons it rest ih => intro db; exact ih _

/-- Replacing the sale with the matching id in the list is what the
subsequent lookup sees. -/
theorem findSale_map_set (db : Db) (id : Nat) (sale newSale : Sale)
    (h : findSale db id = some sale) (hid : newSale.id = sale.id) :
    (db.sales.map fun s => if s.id == id then newSale else s).find? (fun s => s.id == id)
      = some newSale := by
  have hsid : sale.id = id := by
    have := List.find?_some h
    simpa using this
  rw [List.find?_map]
  have hpred : ((fun s => s.id == id) ∘ fun s => if s.id == id then newSale else s)
      = fun s => s.id == id := by
    funext s
    by_cases hs : s.id = id
    · simp [hs, hid, hsid]
    · simp [hs]
  rw [hpred]
  unfold findSale at h
  rw [h]
  simp [hsid, hid]

/-- C4: cancelSale fails with NotFound for a missing id, fails with
BadRequest for an already-CANCELLED sale leaving the state unchanged,
and otherwise adds back onto every product exactly the quantity its
items record (additively, whatever the current stock) and marks the
sale CANCELLED. -/
theorem C4_cancelSale_spec (db : Db) (id : Nat) :
    (findSale db id = none →
      SalesService.cancelSale db id
        = (db, Except.error (SvcError.notFound
            ("Sale with ID " ++ toString id ++ " not found")))) ∧
    (∀ sale, findSale db id = some sale → sale.status = SaleStatus.CANCELLED →
      SalesService.cancelSale db id
        = (db, Except.error (SvcError.badRequest "Sale is already cancelled"))) ∧
    (∀ sale, findSale db id = some sale → sale.status ≠ SaleStatus.CANCELLED →
      (SalesService.cancelSale db id).2
          = Except.ok { sale with status := SaleStatus.CANCELLED } ∧
      findSale (SalesService.cancelSale db id).1 id
          = some { sale with status := SaleStatus.CANCELLED } ∧
      ∀ pid p, findProduct db pid = some p →
        findProduct (SalesService.cancelSale db id).1 pid
          = some { p with quantity := p.quantity + itemsQty pid sale.items }) := by
  refine ⟨?_, ?_, ?_⟩
  · intro h
    unfold SalesService.cancelSale
    rw [h]
  · intro sale h hc
    unfold SalesService.cancelSale
    rw [h]
    simp [hc]
  · intro sale h hc
    have hcb : (sale.status == SaleStatus.CANCELLED) = false := by
      simpa using hc
    unfold SalesService.cancelSale
    rw [h]
    simp only [hcb, Bool.false_eq_true, if_false]
    refine ⟨by trivial, ?_, ?_⟩
    · show ((SalesService.restoreItems db sale.items).sales.map
          fun s => if s.id == id then _ else s).find? (fun s => s.id == id) = _
      rw [restoreItems_sales]
      exact findSale_map_set db id sale _ h rfl
    · intro pid p hp
      show findProduct (SalesService.restoreItems db sale.items) pid = _
      rw [findProduct_restoreItems, hp]
      rfl

/-- C4 witness: cancelling the completed sale restores product 1 from
7 to 10 and returns the sale as CANCELLED. -/
theorem C4_cancelSale_spec_witness :
    (SalesService.cancelSale saleDb 1).2
      = Except.ok { completedSale with status := SaleStatus.CANCELLED } := by
  have h := (C4_cancelSale_spec saleDb 1).2.2 completedSale (by decide) (by decide)
  exact h.1

/-- A nonnegative increment keeps all stocks nonnegative. -/
theorem stockNonneg_updateNonneg (db : Db) (pid : Nat) (delta : ℤ) (hd : 0 ≤ delta)
    (h : StockNonneg db) : StockNonneg (updateProductQty db pid delta) := by
  intro p hp
  unfold updateProductQty at hp
  simp only [List.mem_map] at hp
  obtain ⟨p0, hp0, rfl⟩ := hp
  by_cases hid : p0.id = pid
  · have := h p0 hp0
    simp only [hid, beq_self_eq_true, if_true]
    omega
  · simpa [hid] using h p0 hp0

/-- The guarded decrement of the create loop keeps stocks nonnegative:
the updated row is, by primary-key uniqueness, the row the guard
checked. -/
theorem stockNonneg_decrement (db : Db) (product : Product) (pid : Nat) (q : ℤ)
    (hfind : findProduct db pid = some product)
    (hq : ¬ product.quantity < q)
    (hnodup : IdsUnique db) (h : StockNonneg db) :
    StockNonneg (updateProductQty db pid (-q)) := by
  intro p hp
  unfold updateProductQty at hp
  simp only [List.mem_map] at hp
  obtain ⟨p0, hp0, rfl⟩ := hp
  by_cases hid : p0.id = pid
  · have hmem : product ∈ db.products := List.mem_of_find?_eq_some hfind
    have hpid : product.id = pid := by simpa using List.find?_some hfind
    have heq : p0 = product :=
      List.inj_on_of_nodup_map hnodup hp0 hmem (by rw [hid, hpid])
    subst heq
    simp only [hid, beq_self_eq_true, if_true]
    omega
  · simpa [hid] using h p0 hp0

/-- Restoring items whose recorded quantities are nonnegative keeps
all stocks nonnegative. -/
theorem stockNonneg_restore (items : List SaleItem) :
    ∀ db : Db, (∀ it ∈ items, 0 ≤ it.quantity) → StockNonneg db →
      StockNonneg (SalesService.restoreItems db items) := by
  induction items with
  | nil => intro db _ h; exact h
  | cons it rest ih =>
    intro db hq h
    exact ih _ (fun x hx => hq x (List.mem_cons_of_mem _ hx))
      (stockNonneg_updateNonneg db it.productId it.quantity
        (hq it (List.mem_cons_self _ _)) h)

/-- Quantity updates do not move, add or remove rows. -/
theorem productIds_updateQty (db : Db) (pid : Nat) (delta : ℤ) :
    (updateProductQty db pid delta).products.map (fun p => p.id)
      = db.products.map fun p => p.id := by
  unfold updateProductQty
  simp only [List.map_map]
  congr 1
  funext p
  by_cases h : p.id = pid <;> simp [h]

/-- Neither does restoring a list of items. -/
theorem productIds_restoreItems (items : List SaleItem) :
    ∀ db : Db,
      (SalesService.restoreItems db items).products.map (fun p => p.id)
        = db.products.map fun p => p.id := by
  induction items with
  | nil => intro db; rfl
  | cons it rest ih =>
    intro db
    show (SalesService.restoreItems (updateProductQty db it.productId it.quantity)
        rest).products.map _ = _
    rw [ih, productIds_updateQty]

/-- The item loop never touches the sales table or the id counter. -/
theorem processSaleItems_sales (items : List CreateSaleItemDto) :
    ∀ (db : Db) (acc : List SaleItem) (total : ℚ),
      (processSaleItems db items acc total).1.sales = db.sales ∧
      (processSaleItems db items acc total).1.nextSaleId = db.nextSaleId := by
  induction items with
  | nil => intro db acc total; exact ⟨rfl, rfl⟩
  | cons it rest ih =>
    intro db acc total
    simp only [processSaleItems]
    cases hp : findProduct db it.productId with
    | none => exact ⟨rfl, rfl⟩
    | some product =>
      by_cases hact : product.isActive
      · by_cases hstock : product.quantity < it.quantity
        · simp [hact, hstock]
        · simp only [hact, Bool.not_true, Bool.false_eq_true, if_false, hstock,
            if_true]
          exact ih _ _ _
      · simp [hact]

/-- The item loop keeps the product id row-set and nonnegative stock. -/
theorem processSaleItems_stock (items : List CreateSaleItemDto) :
    ∀ (db : Db) (acc : List SaleItem) (total : ℚ),
      IdsUnique db → StockNonneg db →
      ((processSaleItems db items acc total).1.products.map (fun p => p.id)
          = db.products.map fun p => p.id) ∧
      StockNonneg (processSaleItems db items acc total).1 := by
  induction items with
  | nil => intro db acc total _ hs; exact ⟨rfl, hs⟩
  | cons it rest ih =>
    intro db acc total hn hs
    simp only [processSaleItems]
    cases hp : findProduct db it.productId with
    | none => exact ⟨rfl, hs⟩
    | some product =>
      by_cases hact : product.isActive
      · by_cases hstock : product.quantity < it.quantity
        · simp only [hact, Bool.not_true, Bool.false_eq_true, if_false, hstock,
            if_true]
          exact ⟨by trivial, hs⟩
        · simp only [hact, Bool.not_true, Bool.false_eq_true, if_false, hstock,
            if_true]
          have hn1 : IdsUnique (updateProductQty db it.productId (-it.quantity)) := by
            unfold IdsUnique
            rw [productIds_updateQty]
            exact hn
          have hs1 := stockNonneg_decrement db product it.productId it.quantity hp
            hstock hn hs
          obtain ⟨hids, hstk⟩ := ih (updateProductQty db it.productId (-it.quantity))
            (⟨it.productId, it.quantity, product.price, it.discount.getD 0,
              product.price * (it.quantity : ℚ) - it.discount.getD 0⟩ :: acc)
            (total + (product.price * (it.quantity : ℚ) - it.discount.getD 0)) hn1 hs1
          exact ⟨hids.trans (productIds_updateQty db it.productId (-it.quantity)), hstk⟩
      · simp only [hact]
        exact ⟨rfl, hs⟩

/-- Forall₂ gives, for each element on the right, a witness on the
left. -/
theorem forall2_mem_right {α β : Type} {R : α → β → Prop} :
    ∀ {l1 : List α} {l2 : List β}, List.Forall₂ R l1 l2 → ∀ b ∈ l2, ∃ a ∈ l1, R a b := by
  intro l1 l2 h
  induction h with
  | nil => intro b hb; cases hb
  | cons hr _ ih =>
    intro b hb
    cases hb with
    | head => exact ⟨_, List.mem_cons_self _ _, hr⟩
    | tail _ hb =>
      obtain ⟨a, ha, hab⟩ := ih b hb
      exact ⟨a, List.mem_cons_of_mem _ ha, hab⟩

/-- One sales-service call preserves the database invariant. -/
theorem applySaleOp_inv (db : Db) (op : SaleOp) (hv : ValidOp op) (hinv : DbInv db) :
    DbInv (applySaleOp db op) := by
  obtain ⟨hn, hs, hi⟩ := hinv
  cases op with
  | createOp dto uid =>
    show DbInv (SalesService.create db dto uid).1
    unfold SalesService.create
    by_cases hemp : dto.items.isEmpty
    · simp only [hemp, if_true]
      exact ⟨hn, hs, hi⟩
    · by_cases hcust : (match dto.customerId with
        | some cid => !customerExists db cid
        | none => false)
      · simp only [hemp, Bool.false_eq_true, if_false, hcust, if_true]
        exact ⟨hn, hs, hi⟩
      · simp only [hemp, Bool.false_eq_true, if_false, hcust]
        obtain ⟨hids, hstk⟩ := processSaleItems_stock dto.items db [] 0 hn hs
        obtain ⟨hsl, -⟩ := processSaleItems_sales dto.items db [] 0
        cases hp : processSaleItems db dto.items [] 0 with
        | mk db1 res =>
          rw [hp] at hids hstk hsl
          cases res with
          | error e =>
            refine ⟨?_, hstk, ?_⟩
            · unfold IdsUnique; rw [hids]; exact hn
            · intro s hsmem
              rw [hsl] at hsmem
              exact hi s hsmem
          | ok pr =>
            obtain ⟨saleItems, totalAmount⟩ := pr
            obtain ⟨tail, h1, -, h3⟩ :=
              processSaleItems_ok dto.items db db1 [] saleItems 0 totalAmount hp
            simp only [List.reverse_nil, List.nil_append] at h1
            subst h1
            refine ⟨?_, hstk, ?_⟩
            · unfold IdsUnique; rw [hids]; exact hn
            · intro s hsmem it hit
              simp only [List.mem_append, List.mem_singleton] at hsmem
              cases hsmem with
              | inl hmem =>
                rw [hsl] at hmem
                exact hi s hmem it hit
              | inr hnew =>
                subst hnew
                simp only at hit
                obtain ⟨dit, hdit, hspec⟩ := forall2_mem_right h3 it hit
                obtain ⟨-, hq, -⟩ := hspec.choose_spec.2.2
                have hval := hv.1 dit hdit
                have h1 : 1 ≤ dit.quantity := hval.1
                rw [hq]
                omega
  | cancelOp id =>
    show DbInv (SalesService.cancelSale db id).1
    unfold SalesService.cancelSale
    cases hf : findSale db id with
    | none => exact ⟨hn, hs, hi⟩
    | some sale =>
      by_cases hc : sale.status == SaleStatus.CANCELLED
      · simp only [hc, if_true]
        exact ⟨hn, hs, hi⟩
      · simp only [hc, Bool.false_eq_true, if_false]
        have hsmem : sale ∈ db.sales := List.mem_of_find?_eq_some hf
        have hitems : ∀ it ∈ sale.items, 0 ≤ it.quantity := hi sale hsmem
        refine ⟨?_, ?_, ?_⟩
        · unfold IdsUnique
          show ((SalesService.restoreItems db sale.items).products.map _).Nodup
          rw [productIds_restoreItems]
          exact hn
        · show StockNonneg { SalesService.restoreItems db sale.items with sales := _ }
          intro p hp
          exact stockNonneg_restore sale.items db hitems hs p hp
        · intro s hsm it hit
          simp only [List.mem_map, restoreItems_sales] at hsm
          obtain ⟨s0, hs0, rfl⟩ := hsm
          by_cases hsid : s0.id = id
          · simp only [hsid, beq_self_eq_true, if_true] at hit
            exact hitems it hit
          · have hb : (s0.id == id) = false := by simpa using hsid
            simp only [hb, Bool.false_eq_true, if_false] at hit
            exact hi s0 hs0 it hit
  | removeOp id =>
    show DbInv (SalesService.remove db id).1
    unfold SalesService.remove
    cases hf : findSale db id with
    | none => exact ⟨hn, hs, hi⟩
    | some sale =>
      have hsmem : sale ∈ db.sales := List.mem_of_find?_eq_some hf
      have hitems : ∀ it ∈ sale.items, 0 ≤ it.quantity := hi sale hsmem
      by_cases hc : sale.status == SaleStatus.COMPLETED
      · simp only [hc, if_true]
        refine ⟨?_, ?_, ?_⟩
        · unfold IdsUnique
          show ((SalesService.restoreItems db sale.items).products.map _).Nodup
          rw [productIds_restoreItems]
          exact hn
        · intro p hp
          exact stockNonneg_restore sale.items db hitems hs p hp
        · intro s hsm it hit
          simp only [restoreItems_sales] at hsm
          exact hi s (List.mem_of_mem_filter hsm) it hit
      · simp only [hc, Bool.false_eq_true, if_false]
        refine ⟨hn, hs, ?_⟩
        intro s hsm it hit
        exact hi s (List.mem_of_mem_filter hsm) it hit

/-- C2: starting from a well-formed state (unique product ids, all
stocks nonnegative, all recorded item quantities nonnegative), any
sequence of validated create / cancelSale / remove calls keeps every
product quantity nonnegative after each step. -/
theorem C2_quantity_nonneg (db : Db) (ops : List SaleOp)
    (hinv : DbInv db) (hops : ∀ op ∈ ops, ValidOp op) (i : Nat) :
    StockNonneg (runSaleOps db (ops.take i)) := by
  have main : ∀ (l : List SaleOp) (d : Db), DbInv d → (∀ op ∈ l, ValidOp op) →
      DbInv (runSaleOps d l) := by
    intro l
    induction l with
    | nil => intro d hd _; exact hd
    | cons op rest ih =>
      intro d hd hl
      exact ih (applySaleOp d op)
        (applySaleOp_inv d op (hl op (List.mem_cons_self _ _)) hd)
        (fun o ho => hl o (List.mem_cons_of_mem _ ho))
  exact (main (ops.take i) db hinv fun op hop => hops op (List.mem_of_mem_take hop)).2.1

/-- C2 witness: after the partially failing create and a cancel on the
two-product state, all stocks are still nonnegative. -/
theorem C2_quantity_nonneg_witness :
    StockNonneg (runSaleOps twoProductDb (opsEx.take 2)) :=
  C2_quantity_nonneg twoProductDb opsEx (by decide) (by decide) 2

end RockyPos
